import Mathlib

/-!
Verification of the `again` repository (a Handmade-Hero-style Rust program)
against its natural-language specification.

The relevant code lives in `src/game.rs` (DisplayBuffer pixel pattern,
SoundBuffer sine renderer) and `src/win32.rs` (circular sound-buffer plan
arithmetic, `fill_buffer`, keyboard handling).  Machine integers (`u32`,
`i32`, `u16`, `u8`, `i16`) are modelled as `Nat`/`Int` with explicit
`% 2 ^ w` reductions at the places where Rust's fixed-width arithmetic can
wrap; Rust panics (failed `assert!`, out-of-bounds indexing) are modelled by
`Option`-valued functions returning `none`.  `f32` values and operations are
modelled generically: a phase type `σ` together with abstract functions
standing for the floating-point sine/advance operations, so that every
theorem proved generically holds in particular for the real `f32` semantics;
where a concrete numeric carrier is needed (the `as i16` cast) finite `f32`
values are represented by the rationals they denote.
-/

namespace Again

/-- One `2 ^ 32` constant for `u32` wrap-around arithmetic. -/
def U32 : Nat := 2 ^ 32

/-! ## game.rs: DisplayBuffer -/

/-- Embedding of `struct Pixel` (fields `b g r a : u8`) from `game.rs`.
Channel values are naturals kept below 256 by the operations. -/
structure Pixel where
  b : Nat
  g : Nat
  r : Nat
  a : Nat
deriving DecidableEq, Repr

/-- Rust `Default` for `Pixel`: all channels zero. -/
instance : Inhabited Pixel := ⟨⟨0, 0, 0, 0⟩⟩

/-- Embedding of `struct DisplayBuffer` from `game.rs`: pixel memory, scroll offset
(`current_offset: i32`, modelled as `Int`), and `i32` dimensions. -/
structure DisplayBuffer where
  memory : List Pixel
  current_offset : Int
  width : Int
  height : Int
deriving DecidableEq, Repr

/-- The `as u8` truncation of an `i32` value: low 8 bits of the
two's-complement representation, i.e. the value modulo 256. -/
def asU8 (z : Int) : Nat := (z % 256).toNat

/-- Two's-complement reduction of an integer into the `i32` range
`[-2 ^ 31, 2 ^ 31)`: the result of a wrapping `i32` addition (release-mode
Rust semantics, as for the `u32` counter in `fill_buffer`). -/
def asI32 (z : Int) : Int := (z + 2 ^ 31) % 2 ^ 32 - 2 ^ 31

/-- The green value written at linear index `i` by `step_render`
(`game.rs` line 27): `((x ^ y) - self.current_offset) as u8` with
`x = i % width`, `y = i / height` (`i32` arithmetic on non-negative values,
hence plain `Nat` mod/div/xor). -/
def greenAt (w h : Nat) (offset : Int) (i : Nat) : Nat :=
  asU8 ((((i % w) ^^^ (i / h) : Nat) : Int) - offset)

/-- The loop body of `DisplayBuffer::step_render`: rewrite the green channel
of every pixel, keeping blue/red/alpha, with the running index starting at
`i` (`for (i, pixel) in self.memory.iter_mut().enumerate()`). -/
def stepPixels (w h : Nat) (offset : Int) : Nat → List Pixel → List Pixel
  | _, [] => []
  | i, p :: rest =>
      { p with g := greenAt w h offset i } :: stepPixels w h offset (i + 1) rest

/-- The value `i32::max_value()`. -/
def I32MAX : Nat := 2 ^ 31 - 1

/-- Embedding of `DisplayBuffer::step_render(step_by)` from `game.rs` lines 19-31.
The two leading `assert!`s (positive dimensions, `memory.len == h * w`) and
the per-index `assert!(i < i32::max_value())` (which holds for every index
iff `memory.len() <= i32::MAX`) are modelled as `none` on failure; the
`i32` update `current_offset += step_by` wraps two's-complement via
`asI32`. -/
def DisplayBuffer.step_render (db : DisplayBuffer) (stepBy : Int) :
    Option DisplayBuffer :=
  if 0 < db.width ∧ 0 < db.height then
    if db.memory.length = db.height.toNat * db.width.toNat then
      if db.memory.length ≤ I32MAX then
        some { db with
          memory := stepPixels db.width.toNat db.height.toNat
            db.current_offset 0 db.memory,
          current_offset := asI32 (db.current_offset + stepBy) }
      else none
    else none
  else none

/-- Embedding of `Vec::resize_with(new_size, Default::default)` guarded by
`if new_size != self.memory.len()` (`win32.rs` lines 32-35): truncate when
shrinking, pad with default (zero) pixels when growing. -/
def resizeWith (l : List Pixel) (n : Nat) : List Pixel :=
  if n = l.length then l
  else l.take n ++ List.replicate (n - l.length) default

/-- Embedding of `DisplayBuffer::resize_dib_section` from `win32.rs` lines 23-38 (the
`BITMAPINFO` bookkeeping, which only mirrors the width/height fields into a
winapi struct, is omitted): assert positive dimensions, store them, resize
the pixel memory if the size changed, then run `self.step_render(1)`. -/
def DisplayBuffer.resize_dib_section (db : DisplayBuffer)
    (window_width window_height : Int) : Option DisplayBuffer :=
  if 0 < window_width ∧ 0 < window_height then
    DisplayBuffer.step_render
      { db with
        width := window_width,
        height := window_height,
        memory := resizeWith db.memory
          (window_width.toNat * window_height.toNat) }
      1
  else none

/-! ## game.rs: SoundBuffer

The phase `t_sin: f32` and the floating-point operations on it are modelled
generically: `σ` is the phase carrier, `emit : σ → Int` stands for
`(t_sin.sin() * volume) as i16`, and `advF rate hz : σ → σ` stands for one
execution of `t_sin += 2.0 * PI * 1.0 / wave_period` with
`wave_period = rate / hz`.  Any actual `f32` semantics is an instance. -/

/-- Embedding of `struct SoundBuffer` from `game.rs`, generic over the phase carrier. -/
structure SoundBuffer (σ : Type) where
  samples : List Int
  sample_count : Nat
  t_sin : σ
  sample_rate : Nat

/-- The loop of `SoundBuffer::render_sound` (`game.rs` lines 47-54): for
each of `n` pairs, write `emit t` into `samples[i]` and `samples[i+1]`
(panic, modelled as `none`, as soon as an index is out of bounds), then
advance the phase; `i` steps by 2. -/
def renderPairs {σ : Type} (emit : σ → Int) (step : σ → σ) :
    Nat → Nat → σ → List Int → Option (List Int × σ)
  | _, 0, t, s => some (s, t)
  | i, n + 1, t, s =>
      if i + 1 < s.length then
        renderPairs emit step (i + 2) n (step t)
          ((s.set i (emit t)).set (i + 1) (emit t))
      else none

/-- Embedding of `SoundBuffer::render_sound(tone_hz)` from `game.rs` lines 43-55: run the
pair-writing loop over `self.sample_count` pairs starting at index 0, with
the phase advance determined by `sample_rate` and `tone_hz`. -/
def SoundBuffer.render_sound {σ : Type} (emit : σ → Int)
    (advF : Nat → Nat → σ → σ) (tone_hz : Nat) (b : SoundBuffer σ) :
    Option (SoundBuffer σ) :=
  match renderPairs emit (advF b.sample_rate tone_hz) 0 b.sample_count
      b.t_sin b.samples with
  | none => none
  | some (s, t) => some { b with samples := s, t_sin := t }

/-- The pure sample sequence emitted by `n` iterations of the render loop
from phase `t`: each pair contributes the same value twice (left and right
channel). -/
def emitSeq {σ : Type} (emit : σ → Int) (step : σ → σ) :
    Nat → σ → List Int
  | 0, _ => []
  | n + 1, t => emit t :: emit t :: emitSeq emit step n (step t)

/-! ## win32.rs: `as i16` cast semantics

In `(self.t_sin.sin() * self.volume) as i16` the `f32` value (every finite
`f32` is a rational, modelled as `ℚ`) is converted by Rust's float-to-int
`as` cast: round toward zero, then saturate at the target type's bounds. -/

/-- Truncation of a rational toward zero. -/
def ratTrunc (q : ℚ) : Int := if 0 ≤ q then ⌊q⌋ else ⌈q⌉

/-- Rust semantics of `as i16` applied to a finite `f32` value `q`:
round toward zero and saturate to `[-32768, 32767]`. -/
def f32AsI16 (q : ℚ) : Int := max (-32768) (min 32767 (ratTrunc q))

/-- Written from the spec's words for comparison (spec 4.2 claims the cast
"will wrap" for out-of-range values): truncation toward zero followed by
two's-complement reduction modulo `2 ^ 16`. -/
def i16WrapSpec (q : ℚ) : Int := (ratTrunc q + 32768) % 65536 - 32768

/-- The concrete `emit` function of `game.rs` line 48 over the rational
model: `(sin(t) * volume) as i16`, with the `f32` sine left abstract. -/
def emitOf (sinF : ℚ → ℚ) (volume : ℚ) : ℚ → Int :=
  fun t => f32AsI16 (sinF t * volume)

/-! ## win32.rs: SoundOutput plan arithmetic -/

/-- Embedding of `byte_to_lock` (`win32.rs` lines 666-668): `u32` multiplication (wraps
at `2 ^ 32`) followed by `% buffer_size`. -/
def byteToLock (bufferSize bytesPerSample rsi : Nat) : Nat :=
  (rsi * bytesPerSample % U32) % bufferSize

/-- Embedding of `target_cursor` (`win32.rs` lines 669-671): `u32` multiply and add
(each wrapping at `2 ^ 32`) followed by `% buffer_size`. -/
def targetCursor (bufferSize bytesPerSample latency playCursor : Nat) : Nat :=
  ((playCursor + latency * bytesPerSample % U32) % U32) % bufferSize

/-- Embedding of `bytes_to_write` (`win32.rs` lines 672-676). -/
def bytesToWrite (bufferSize btl tc : Nat) : Nat :=
  if btl > tc then bufferSize - btl + tc else tc - btl

/-- Modelled from the spec: the device's `Lock` reports the requested span
as one or two physical regions — region 1 starts at `byte_to_lock` and runs
to the end of the buffer at most, region 2 (present when the span wraps
past `buffer_size`) starts at byte 0; this returns the two region sizes.
The device itself (DirectSound) is outside `src/`. -/
def lockRegionSizes (bufferSize btl btw : Nat) : Nat × Nat :=
  (min btw (bufferSize - btl), btw - min btw (bufferSize - btl))

/-! ## win32.rs: SoundOutput.fill_buffer -/

/-- Reading side of a region-copy loop in `fill_buffer` (`win32.rs` lines
329-339 and 343-353): for pair counter `n`, read `samples[i]` and
`samples[i+1]`, panic (`none`) when out of bounds, and collect the values
written to the region in order; `i` steps by 2. -/
def readPairs (src : List Int) : Nat → Nat → Option (List Int)
  | _, 0 => some []
  | i, n + 1 =>
      match src[i]?, src[i + 1]?, readPairs src (i + 2) n with
      | some x, some y, some rest => some (x :: y :: rest)
      | _, _, _ => none

/-- Result of one `fill_buffer` call: the updated `running_sample_index`
and the sample values written into each locked region, in order. -/
structure FillResult where
  running_sample_index : Nat
  region1 : List Int
  region2 : List Int
deriving DecidableEq, Repr

/-- Embedding of `SoundOutput::fill_buffer` from `win32.rs` lines 300-358.  `lockRes`
is the device's answer to the `Lock` call: `none` when the lock is denied
(the function returns immediately, writing nothing), otherwise the two
region sizes in bytes.  On success each region copies
`region_size / bytes_per_sample` pairs from the source, with the loop index
restarting at 0 for region 2 exactly as in the source, and
`running_sample_index` is incremented once per pair (`u32`, wraps at
`2 ^ 32`). -/
def fillBuffer (lockRes : Option (Nat × Nat)) (bytesPerSample rsi : Nat)
    (src : List Int) : Option FillResult :=
  match lockRes with
  | none => some ⟨rsi, [], []⟩
  | some (r1, r2) =>
      let c1 := r1 / bytesPerSample
      let c2 := r2 / bytesPerSample
      match readPairs src 0 c1 with
      | none => none
      | some v1 =>
          match readPairs src 0 c2 with
          | none => none
          | some v2 => some ⟨(rsi + c1 + c2) % U32, v1, v2⟩

/-! ## win32.rs: tone frequency (`handle_key_press`) -/

/-- The value `u16::MAX`. -/
def U16MAX : Nat := 65535

/-- One tone adjustment from `handle_key_press` (`win32.rs` lines 117-118):
`true` is a VK_UP press (`HZ.saturating_add(64)`), `false` a VK_DOWN press
(`HZ.saturating_sub(64)`); `HZ` is a `u16`, so addition saturates at 65535
and subtraction at 0. -/
def toneAdjust (hz : Nat) (up : Bool) : Nat :=
  if up then min (hz + 64) U16MAX else hz - 64

/-- The tone frequency after a sequence of key presses starting from `hz`. -/
def toneRun (events : List Bool) (hz : Nat) : Nat :=
  events.foldl toneAdjust hz

/-- The initial value of `static mut HZ: u16 = 512` (`win32.rs` line 107). -/
def initialHZ : Nat := 512

/-! ## win32.rs: `win32_main` sound constants (lines 550-562, 590-596) -/

/-- The constant `sample_rate = 48000`. -/
def mainSampleRate : Nat := 48000

/-- The constant `bytes_per_sample = size_of::<WORD>() * 2 = 4`. -/
def mainBytesPerSample : Nat := 4

/-- The constant `buffer_size = sample_rate * bytes_per_sample = 192000`. -/
def mainBufferSize : Nat := mainSampleRate * mainBytesPerSample

/-- The constant `latency_sample_count = sample_rate / 15 = 3200`. -/
def mainLatency : Nat := mainSampleRate / 15

/-! ## General list helpers -/

theorem take_succ_set {α : Type} :
    ∀ (l : List α) (i : Nat) (v : α), i < l.length →
      (l.set i v).take (i + 1) = l.take i ++ [v]
  | [], i, v, h => by simp at h
  | _ :: _, 0, v, _ => by simp
  | a :: tl, i + 1, v, h => by
      simp only [List.set, List.take, List.cons_append, List.cons.injEq, true_and]
      exact take_succ_set tl i v (by simpa using h)

theorem drop_set_of_lt {α : Type} :
    ∀ (l : List α) (i m : Nat) (v : α), i < m →
      (l.set i v).drop m = l.drop m
  | [], _, _, _, _ => by simp
  | a :: tl, 0, m + 1, v, _ => by simp
  | a :: tl, i + 1, m + 1, v, h => by
      simp only [List.set, List.drop]
      exact drop_set_of_lt tl i m v (Nat.lt_of_succ_lt_succ h)

/-! ## DisplayBuffer lemmas -/

theorem stepPixels_length (w h : Nat) (off : Int) :
    ∀ (i : Nat) (l : List Pixel), (stepPixels w h off i l).length = l.length
  | _, [] => rfl
  | i, _ :: rest => by
      simp only [stepPixels, List.length_cons]
      rw [stepPixels_length w h off (i + 1) rest]

theorem stepPixels_getElem? (w h : Nat) (off : Int) :
    ∀ (l : List Pixel) (i j : Nat),
      (stepPixels w h off i l)[j]? =
        l[j]?.map (fun p => { p with g := greenAt w h off (i + j) })
  | [], i, j => by simp [stepPixels]
  | p :: rest, i, 0 => by simp [stepPixels]
  | p :: rest, i, j + 1 => by
      simp only [stepPixels, List.getElem?_cons_succ]
      rw [stepPixels_getElem? w h off rest (i + 1) j]
      have : i + 1 + j = i + (j + 1) := by omega
      rw [this]

theorem asI32_eq_self (z : Int) (h1 : -(2 ^ 31) ≤ z) (h2 : z < 2 ^ 31) :
    asI32 z = z := by
  unfold asI32
  have e31 : (2 : Int) ^ 31 = 2147483648 := by norm_num
  have e32 : (2 : Int) ^ 32 = 4294967296 := by norm_num
  rw [e31, e32]
  rw [e31] at h1 h2
  omega

theorem resizeWith_length (l : List Pixel) (n : Nat) :
    (resizeWith l n).length = n := by
  unfold resizeWith
  split
  · omega
  · simp only [List.length_append, List.length_take, List.length_replicate]
    omega

/-- Full behaviour of `resize_dib_section` under the preconditions the code
asserts: the dimensions are stored, the memory is reallocated to the new
size, and the trailing `step_render(1)` bumps `current_offset` by one. -/
theorem resize_dib_spec (db : DisplayBuffer) (nw nh : Int)
    (hw : 0 < nw) (hh : 0 < nh) (hbound : nw.toNat * nh.toNat ≤ I32MAX) :
    db.resize_dib_section nw nh = some
      { memory := stepPixels nw.toNat nh.toNat db.current_offset 0
          (resizeWith db.memory (nw.toNat * nh.toNat)),
        current_offset := asI32 (db.current_offset + 1),
        width := nw, height := nh } := by
  unfold DisplayBuffer.resize_dib_section DisplayBuffer.step_render
  dsimp only
  rw [resizeWith_length]
  rw [if_pos ⟨hw, hh⟩, if_pos ⟨hw, hh⟩, if_pos (Nat.mul_comm nw.toNat nh.toNat),
    if_pos hbound]

/-! ## Plan arithmetic lemmas -/

theorem byteToLock_lt (bufferSize bps rsi : Nat) (h : 0 < bufferSize) :
    byteToLock bufferSize bps rsi < bufferSize :=
  Nat.mod_lt _ h

theorem targetCursor_lt (bufferSize bps latency playCursor : Nat)
    (h : 0 < bufferSize) :
    targetCursor bufferSize bps latency playCursor < bufferSize :=
  Nat.mod_lt _ h

theorem bytesToWrite_lt (bufferSize btl tc : Nat)
    (h1 : btl < bufferSize) (h2 : tc < bufferSize) :
    bytesToWrite bufferSize btl tc < bufferSize := by
  unfold bytesToWrite
  split <;> omega

/-- The Plan step never requests a full-buffer or out-of-range lock: for
every play cursor and running sample index the computed `bytes_to_write`
is strictly below `buffer_size`. -/
theorem plan_bytesToWrite_lt (bufferSize bps latency rsi playCursor : Nat)
    (h : 0 < bufferSize) :
    bytesToWrite bufferSize (byteToLock bufferSize bps rsi)
      (targetCursor bufferSize bps latency playCursor) < bufferSize :=
  bytesToWrite_lt _ _ _ (byteToLock_lt _ _ _ h) (targetCursor_lt _ _ _ _ h)

/-! ## Tone frequency lemmas -/

theorem toneAdjust_le (hz : Nat) (e : Bool) (h : hz ≤ U16MAX) :
    toneAdjust hz e ≤ U16MAX := by
  unfold toneAdjust U16MAX at *
  split <;> omega

theorem toneRun_le :
    ∀ (evs : List Bool) (hz : Nat), hz ≤ U16MAX → toneRun evs hz ≤ U16MAX
  | [], hz, h => h
  | e :: evs, hz, h => by
      have step := toneAdjust_le hz e h
      simpa [toneRun, List.foldl] using toneRun_le evs (toneAdjust hz e) step

/-! ## Render-loop lemmas -/

theorem emitSeq_length {σ : Type} (emit : σ → Int) (step : σ → σ) :
    ∀ (n : Nat) (t : σ), (emitSeq emit step n t).length = 2 * n
  | 0, _ => rfl
  | n + 1, t => by
      simp only [emitSeq, List.length_cons]
      rw [emitSeq_length emit step n (step t)]
      omega

theorem emitSeq_add {σ : Type} (emit : σ → Int) (step : σ → σ) :
    ∀ (n1 n2 : Nat) (t : σ),
      emitSeq emit step (n1 + n2) t =
        emitSeq emit step n1 t ++ emitSeq emit step n2 (step^[n1] t)
  | 0, n2, t => by simp [emitSeq]
  | n1 + 1, n2, t => by
      have harith : n1 + 1 + n2 = (n1 + n2) + 1 := by omega
      rw [harith]
      simp only [emitSeq, List.cons_append]
      rw [emitSeq_add emit step n1 n2 (step t),
        ← Function.iterate_succ_apply step n1 t]

theorem emitSeq_getElem? {σ : Type} (emit : σ → Int) (step : σ → σ) :
    ∀ (n k : Nat) (t : σ), k < n →
      (emitSeq emit step n t)[2 * k]? = some (emit (step^[k] t)) ∧
      (emitSeq emit step n t)[2 * k + 1]? = some (emit (step^[k] t))
  | 0, k, t, h => by omega
  | n + 1, 0, t, _ => by simp [emitSeq]
  | n + 1, k + 1, t, h => by
      have h2 : 2 * (k + 1) = 2 * k + 1 + 1 := by omega
      rw [h2]
      simp only [emitSeq, List.getElem?_cons_succ]
      have ih := emitSeq_getElem? emit step n k (step t)
        (Nat.lt_of_succ_lt_succ h)
      rw [ih.1, ih.2, ← Function.iterate_succ_apply step k t]
      exact ⟨rfl, rfl⟩

theorem renderPairs_eq {σ : Type} (emit : σ → Int) (step : σ → σ) :
    ∀ (n i : Nat) (t : σ) (s : List Int), i + 2 * n ≤ s.length →
      renderPairs emit step i n t s =
        some (s.take i ++ emitSeq emit step n t ++ s.drop (i + 2 * n),
          step^[n] t)
  | 0, i, t, s, _ => by
      simp [renderPairs, emitSeq, List.take_append_drop]
  | n + 1, i, t, s, h => by
      have hi1 : i + 1 < s.length := by omega
      have hi : i < s.length := by omega
      have hlen : ((s.set i (emit t)).set (i + 1) (emit t)).length =
          s.length := by simp
      rw [renderPairs, if_pos hi1,
        renderPairs_eq emit step n (i + 2) (step t) _ (by rw [hlen]; omega)]
      have htake : ((s.set i (emit t)).set (i + 1) (emit t)).take (i + 2) =
          s.take i ++ [emit t] ++ [emit t] := by
        rw [take_succ_set _ (i + 1) _ (by simpa using hi1),
          take_succ_set _ i _ hi]
      have hdrop : ((s.set i (emit t)).set (i + 1) (emit t)).drop
          (i + 2 + 2 * n) = s.drop (i + 2 * (n + 1)) := by
        rw [drop_set_of_lt _ (i + 1) _ _ (by omega),
          drop_set_of_lt _ i _ _ (by omega)]
        congr 1
        omega
      rw [htake, hdrop, ← Function.iterate_succ_apply step n t]
      simp only [emitSeq, List.append_assoc, List.cons_append,
        List.singleton_append, List.nil_append]

theorem renderPairs_none {σ : Type} (emit : σ → Int) (step : σ → σ) :
    ∀ (n i : Nat) (t : σ) (s : List Int), 0 < n → s.length < i + 2 * n →
      renderPairs emit step i n t s = none
  | n + 1, i, t, s, _, h => by
      rw [renderPairs]
      split
      · rename_i hguard
        match n, h with
        | 0, h => omega
        | m + 1, h =>
            exact renderPairs_none emit step (m + 1) (i + 2) (step t) _
              (by omega) (by simp; omega)
      · rfl

/-- Success case of `render_sound`: with enough sample capacity, the first
`2 * sample_count` slots become the emitted sequence, the rest of the
buffer is untouched, and the phase advances by one step per pair. -/
theorem render_sound_eq {σ : Type} (emit : σ → Int)
    (advF : Nat → Nat → σ → σ) (hz : Nat) (b : SoundBuffer σ)
    (h : 2 * b.sample_count ≤ b.samples.length) :
    b.render_sound emit advF hz = some { b with
      samples := emitSeq emit (advF b.sample_rate hz) b.sample_count b.t_sin
        ++ b.samples.drop (2 * b.sample_count),
      t_sin := (advF b.sample_rate hz)^[b.sample_count] b.t_sin } := by
  unfold SoundBuffer.render_sound
  rw [renderPairs_eq emit (advF b.sample_rate hz) b.sample_count 0 b.t_sin
    b.samples (by omega)]
  simp

/-- Panic case of `render_sound`: too little capacity yields `none`. -/
theorem render_sound_isNone {σ : Type} (emit : σ → Int)
    (advF : Nat → Nat → σ → σ) (hz : Nat) (b : SoundBuffer σ)
    (h : b.samples.length < 2 * b.sample_count) :
    b.render_sound emit advF hz = none := by
  unfold SoundBuffer.render_sound
  rw [renderPairs_none emit (advF b.sample_rate hz) b.sample_count 0 b.t_sin
    b.samples (by omega) (by omega)]

/-! ## fill_buffer lemmas -/

theorem readPairs_eq :
    ∀ (n i : Nat) (src : List Int), i + 2 * n ≤ src.length →
      readPairs src i n = some ((src.drop i).take (2 * n))
  | 0, i, src, _ => by simp [readPairs]
  | n + 1, i, src, h => by
      have hi : i < src.length := by omega
      have hi1 : i + 1 < src.length := by omega
      rw [readPairs, List.getElem?_eq_getElem hi, List.getElem?_eq_getElem hi1,
        readPairs_eq n (i + 2) src (by omega)]
      dsimp only
      rw [show 2 * (n + 1) = 2 * n + 1 + 1 by omega]
      rw [List.drop_eq_getElem_cons hi, List.drop_eq_getElem_cons hi1,
        List.take_succ_cons, List.take_succ_cons]

/-- Success case of `fill_buffer`: when the lock is granted with region
sizes `r1, r2` and the source has enough samples, both regions are copied
in full and `running_sample_index` grows by one per pair. -/
theorem fillBuffer_some (r1 r2 bps rsi : Nat) (src : List Int)
    (h1 : 2 * (r1 / bps) ≤ src.length) (h2 : 2 * (r2 / bps) ≤ src.length) :
    fillBuffer (some (r1, r2)) bps rsi src =
      some ⟨(rsi + r1 / bps + r2 / bps) % U32,
        src.take (2 * (r1 / bps)), src.take (2 * (r2 / bps))⟩ := by
  unfold fillBuffer
  dsimp only
  rw [readPairs_eq (r1 / bps) 0 src (by omega),
    readPairs_eq (r2 / bps) 0 src (by omega)]
  simp

/-! ## Claim theorems -/

/-- C1, counterexample: the claim's formula
`byte_to_lock = (running_sample_index * bytes_per_pair) mod buffer_size`
fails for `running_sample_index = 2 ^ 30` with the program's
`buffer_size = 192000`, `bytes_per_pair = 4`: the `u32` multiplication in
the source wraps to 0, so the code computes `byte_to_lock = 0`, while the
claimed value is `2 ^ 32 % 192000 = 119296`. -/
theorem claim_C1_counterexample :
    byteToLock 192000 4 (2 ^ 30) = 0 ∧
    2 ^ 30 * 4 % 192000 = 119296 ∧
    byteToLock 192000 4 (2 ^ 30) ≠ 2 ^ 30 * 4 % 192000 := by
  decide

/-- C1, amended: whenever the `u32` products do not overflow
(`running_sample_index * bytes_per_pair < 2 ^ 32` and
`play_cursor + latency_sample_count * bytes_per_pair < 2 ^ 32`), the Plan
computes `byte_to_lock = (running_sample_index * bytes_per_pair) mod
buffer_size`, `target_cursor = (play_cursor + latency_sample_count *
bytes_per_pair) mod buffer_size`, and the stated `bytes_to_write` formula;
both concrete scenarios of the claim hold. -/
theorem claim_C1_plan (bufferSize bps latency rsi playCursor : Nat)
    (_hP : playCursor < bufferSize)
    (hm : rsi * bps < U32) (ha : playCursor + latency * bps < U32) :
    (byteToLock bufferSize bps rsi = rsi * bps % bufferSize ∧
     targetCursor bufferSize bps latency playCursor =
       (playCursor + latency * bps) % bufferSize ∧
     bytesToWrite bufferSize (byteToLock bufferSize bps rsi)
         (targetCursor bufferSize bps latency playCursor) =
       if byteToLock bufferSize bps rsi >
           targetCursor bufferSize bps latency playCursor then
         bufferSize - byteToLock bufferSize bps rsi +
           targetCursor bufferSize bps latency playCursor
       else
         targetCursor bufferSize bps latency playCursor -
           byteToLock bufferSize bps rsi) ∧
    (byteToLock 192000 4 0 = 0 ∧
     targetCursor 192000 4 800 0 = 3200 ∧
     bytesToWrite 192000 (byteToLock 192000 4 0)
       (targetCursor 192000 4 800 0) = 3200 ∧
     byteToLock 192000 4 47900 = 191600 ∧
     targetCursor 192000 4 800 190000 = 1200 ∧
     bytesToWrite 192000 (byteToLock 192000 4 47900)
       (targetCursor 192000 4 800 190000) = 1600) := by
  refine ⟨⟨?_, ?_, rfl⟩, by decide⟩
  · unfold byteToLock
    rw [Nat.mod_eq_of_lt hm]
  · unfold targetCursor
    rw [Nat.mod_eq_of_lt (show latency * bps < U32 by omega),
      Nat.mod_eq_of_lt ha]

/-- C1, witness: the amended Plan theorem applied at the claim's first
scenario (`buffer_size = 192000`, `bytes_per_pair = 4`, `latency = 800`,
`running_sample_index = 0`, `play_cursor = 0`). -/
theorem claim_C1_plan_witness :
    ((0 : Nat) < 192000 ∧ 0 * 4 < U32 ∧ 0 + 800 * 4 < U32) ∧
    ((byteToLock 192000 4 0 = 0 * 4 % 192000 ∧
      targetCursor 192000 4 800 0 = (0 + 800 * 4) % 192000 ∧
      bytesToWrite 192000 (byteToLock 192000 4 0)
          (targetCursor 192000 4 800 0) =
        if byteToLock 192000 4 0 > targetCursor 192000 4 800 0 then
          192000 - byteToLock 192000 4 0 + targetCursor 192000 4 800 0
        else
          targetCursor 192000 4 800 0 - byteToLock 192000 4 0) ∧
     (byteToLock 192000 4 0 = 0 ∧
      targetCursor 192000 4 800 0 = 3200 ∧
      bytesToWrite 192000 (byteToLock 192000 4 0)
        (targetCursor 192000 4 800 0) = 3200 ∧
      byteToLock 192000 4 47900 = 191600 ∧
      targetCursor 192000 4 800 190000 = 1200 ∧
      bytesToWrite 192000 (byteToLock 192000 4 47900)
        (targetCursor 192000 4 800 190000) = 1600)) :=
  ⟨⟨by decide, by decide, by decide⟩,
    claim_C1_plan 192000 4 800 0 0 (by decide) (by decide) (by decide)⟩

/-- C2: `fill_buffer` does not continue the source index across the region
boundary — the region-2 loop restarts reading the ToneBuffer at index 0.
With the lock granted as two regions of 4 bytes each (one stereo pair per
region), `bytes_per_sample = 4`, and fresh source samples
`[10, 11, 12, 13]`, the code copies `[10, 11]` into region 2, while a
continuing source index would copy `[12, 13]`; `running_sample_index` does
grow by one per pair written (2 in total). -/
theorem claim_C2_region2_restarts :
    fillBuffer (some (4, 4)) 4 0 [10, 11, 12, 13] =
      some ⟨2, [10, 11], [10, 11]⟩ ∧
    (([10, 11, 12, 13] : List Int).drop 2).take 2 = [12, 13] ∧
    (fillBuffer (some (4, 4)) 4 0 [10, 11, 12, 13]).map
        FillResult.region2 ≠ some [12, 13] := by
  decide

/-- C3, counterexample: the claim's "increments scroll_offset by exactly
step_by" fails at the `i32` upper bound — a valid 1-by-1 frame with
`current_offset = i32::MAX` stepped by 1 wraps two's-complement to
`-2 ^ 31` instead of reaching `i32::MAX + 1`. -/
theorem claim_C3_counterexample :
    (DisplayBuffer.step_render ⟨[⟨0, 0, 0, 0⟩], 2 ^ 31 - 1, 1, 1⟩ 1).map
      DisplayBuffer.current_offset = some (-(2 ^ 31)) ∧
    (DisplayBuffer.step_render ⟨[⟨0, 0, 0, 0⟩], 2 ^ 31 - 1, 1, 1⟩ 1).map
      DisplayBuffer.current_offset ≠ some (2 ^ 31 - 1 + 1) := by
  decide

/-- C3, amended: under the preconditions the code asserts (positive
dimensions, `memory.len == width * height`, and every index below
`i32::MAX`, i.e. `memory.len <= i32::MAX`), `step_render(step_by)` sets the
green channel of pixel `i` to `((i mod width) XOR (i div height)) -
scroll_offset` reduced modulo 256 (two's-complement truncation to `u8`),
leaves blue/red/alpha and the dimensions unchanged, and advances
`current_offset` by `step_by` with `i32` two's-complement wraparound — by
exactly `step_by` whenever the `i32` addition does not overflow.  The green
value depends only on `(width, height, current_offset)`. -/
theorem claim_C3_step_render (db : DisplayBuffer) (stepBy : Int)
    (hw : 0 < db.width) (hh : 0 < db.height)
    (hlen : db.memory.length = db.width.toNat * db.height.toNat)
    (hsz : db.memory.length ≤ I32MAX) :
    ∃ db2, db.step_render stepBy = some db2 ∧
      db2.width = db.width ∧ db2.height = db.height ∧
      db2.memory.length = db.memory.length ∧
      db2.current_offset = asI32 (db.current_offset + stepBy) ∧
      (-(2 ^ 31) ≤ db.current_offset + stepBy →
        db.current_offset + stepBy < 2 ^ 31 →
        db2.current_offset = db.current_offset + stepBy) ∧
      ∀ i : Nat, db2.memory[i]? = db.memory[i]?.map (fun p =>
        { p with
            g := asU8 ((((i % db.width.toNat) ^^^ (i / db.height.toNat) :
              Nat) : Int) - db.current_offset) }) := by
  unfold DisplayBuffer.step_render
  rw [if_pos ⟨hw, hh⟩, if_pos (by rw [hlen]; exact Nat.mul_comm _ _),
    if_pos hsz]
  refine ⟨_, rfl, rfl, rfl, ?_, rfl, ?_, ?_⟩
  · exact stepPixels_length _ _ _ _ _
  · intro h1 h2
    exact asI32_eq_self _ h1 h2
  · intro i
    rw [stepPixels_getElem?]
    simp [greenAt]

/-- C3, witness: the step theorem applied to a concrete 2-by-1 frame with
`scroll_offset = 40`. -/
theorem claim_C3_step_render_witness :
    ((0 : Int) < 2 ∧ (0 : Int) < 1 ∧
      ([⟨1, 2, 3, 4⟩, ⟨5, 6, 7, 8⟩] : List Pixel).length =
        (2 : Int).toNat * (1 : Int).toNat ∧
      ([⟨1, 2, 3, 4⟩, ⟨5, 6, 7, 8⟩] : List Pixel).length ≤ I32MAX) ∧
    (∃ db2, DisplayBuffer.step_render ⟨[⟨1, 2, 3, 4⟩, ⟨5, 6, 7, 8⟩], 40, 2, 1⟩
        1 = some db2 ∧
      db2.width = (⟨[⟨1, 2, 3, 4⟩, ⟨5, 6, 7, 8⟩], 40, 2, 1⟩ :
        DisplayBuffer).width ∧
      db2.height = (⟨[⟨1, 2, 3, 4⟩, ⟨5, 6, 7, 8⟩], 40, 2, 1⟩ :
        DisplayBuffer).height ∧
      db2.memory.length = (⟨[⟨1, 2, 3, 4⟩, ⟨5, 6, 7, 8⟩], 40, 2, 1⟩ :
        DisplayBuffer).memory.length ∧
      db2.current_offset = asI32 ((40 : Int) + 1) ∧
      (-(2 ^ 31) ≤ (40 : Int) + 1 → (40 : Int) + 1 < 2 ^ 31 →
        db2.current_offset = (40 : Int) + 1) ∧
      ∀ i : Nat, db2.memory[i]? =
        (⟨[⟨1, 2, 3, 4⟩, ⟨5, 6, 7, 8⟩], 40, 2, 1⟩ :
          DisplayBuffer).memory[i]?.map (fun p =>
          { p with g := asU8 ((((i % (2 : Int).toNat) ^^^
              (i / (1 : Int).toNat) : Nat) : Int) - 40) })) :=
  ⟨⟨by decide, by decide, by decide, by decide⟩,
    claim_C3_step_render ⟨[⟨1, 2, 3, 4⟩, ⟨5, 6, 7, 8⟩], 40, 2, 1⟩ 1
      (by decide) (by decide) (by decide) (by decide)⟩

/-- C4: when the device denies the lock, `fill_buffer` returns at once —
nothing is written, `running_sample_index` keeps its prior value, and no
error is surfaced (the call still "succeeds"); when the lock is granted the
whole planned span is written: both regions receive all
`region_size / bytes_per_sample` pairs and `running_sample_index` advances
once per pair, so the operation is all-or-nothing. -/
theorem claim_C4_lock_denied (bps rsi : Nat) (src : List Int) (r1 r2 : Nat)
    (h1 : 2 * (r1 / bps) ≤ src.length) (h2 : 2 * (r2 / bps) ≤ src.length) :
    fillBuffer none bps rsi src = some ⟨rsi, [], []⟩ ∧
    fillBuffer (some (r1, r2)) bps rsi src =
      some ⟨(rsi + r1 / bps + r2 / bps) % U32,
        src.take (2 * (r1 / bps)), src.take (2 * (r2 / bps))⟩ :=
  ⟨rfl, fillBuffer_some r1 r2 bps rsi src h1 h2⟩

/-- C4, witness: a denied and a granted lock over the concrete source
`[10, 11, 12, 13]` with one pair per region. -/
theorem claim_C4_lock_denied_witness :
    (2 * (4 / 4) ≤ ([10, 11, 12, 13] : List Int).length ∧
     2 * (4 / 4) ≤ ([10, 11, 12, 13] : List Int).length) ∧
    (fillBuffer none 4 7 [10, 11, 12, 13] = some ⟨7, [], []⟩ ∧
     fillBuffer (some (4, 4)) 4 7 [10, 11, 12, 13] =
       some ⟨(7 + 4 / 4 + 4 / 4) % U32,
         ([10, 11, 12, 13] : List Int).take (2 * (4 / 4)),
         ([10, 11, 12, 13] : List Int).take (2 * (4 / 4))⟩) :=
  ⟨⟨by decide, by decide⟩,
    claim_C4_lock_denied 4 7 [10, 11, 12, 13] 4 4 (by decide) (by decide)⟩

/-- Success case of `render_sound` on a buffer whose `sample_count` field
has just been set to `n` (as the presentation loop does each tick), with
the resulting record spelled out field by field. -/
theorem render_sound_state {σ : Type} (emit : σ → Int)
    (advF : Nat → Nat → σ → σ) (hz : Nat) (b : SoundBuffer σ) (n : Nat)
    (h : 2 * n ≤ b.samples.length) :
    SoundBuffer.render_sound emit advF hz { b with sample_count := n } =
      some { samples := emitSeq emit (advF b.sample_rate hz) n b.t_sin ++
               b.samples.drop (2 * n),
             sample_count := n,
             t_sin := (advF b.sample_rate hz)^[n] b.t_sin,
             sample_rate := b.sample_rate } :=
  render_sound_eq emit advF hz { b with sample_count := n } h

/-- C5: `render` is phase-continuous.  For any model of the floating-point
phase operations, rendering `n1` then `n2` pairs at tone `f` produces, as
the concatenation of the two generated sample sequences, exactly the
sample sequence of a single `n1 + n2` render from the same state; the
final phase agrees, the phase is never reset (after the first call it is
exactly `n1` advances from the initial phase), and a second call at any
other tone `g` still starts from the phase left by the first call — only
the per-sample advance function changes. -/
theorem claim_C5_phase_continuity {σ : Type} (emit : σ → Int)
    (advF : Nat → Nat → σ → σ) (f : Nat) (b : SoundBuffer σ) (n1 n2 : Nat)
    (_hf : 0 < f) (hcap : 2 * (n1 + n2) ≤ b.samples.length) :
    ∃ b1 b2 bc,
      SoundBuffer.render_sound emit advF f { b with sample_count := n1 } =
        some b1 ∧
      SoundBuffer.render_sound emit advF f { b1 with sample_count := n2 } =
        some b2 ∧
      SoundBuffer.render_sound emit advF f
        { b with sample_count := n1 + n2 } = some bc ∧
      b1.samples.take (2 * n1) ++ b2.samples.take (2 * n2) =
        bc.samples.take (2 * (n1 + n2)) ∧
      b2.t_sin = bc.t_sin ∧
      b1.t_sin = (advF b.sample_rate f)^[n1] b.t_sin ∧
      (∀ g : Nat, ∃ b2g,
        SoundBuffer.render_sound emit advF g { b1 with sample_count := n2 } =
          some b2g ∧
        b2g.t_sin = (advF b.sample_rate g)^[n2] b1.t_sin) := by
  have hc1 : 2 * n1 ≤ b.samples.length := by omega
  have e1 := render_sound_state emit advF f b n1 hc1
  have hlen1 : (emitSeq emit (advF b.sample_rate f) n1 b.t_sin ++
      b.samples.drop (2 * n1)).length = b.samples.length := by
    simp only [List.length_append, emitSeq_length, List.length_drop]
    omega
  have hc2 : 2 * n2 ≤ (emitSeq emit (advF b.sample_rate f) n1 b.t_sin ++
      b.samples.drop (2 * n1)).length := by
    rw [hlen1]; omega
  refine ⟨_, _, _, e1,
    render_sound_state emit advF f _ n2 hc2,
    render_sound_state emit advF f b (n1 + n2) hcap,
    ?_, ?_, ?_, ?_⟩
  · dsimp only
    rw [List.take_left' (emitSeq_length emit (advF b.sample_rate f) n1
        b.t_sin),
      List.take_left' (emitSeq_length emit (advF b.sample_rate f) n2 _),
      List.take_left' (emitSeq_length emit (advF b.sample_rate f)
        (n1 + n2) b.t_sin)]
    exact (emitSeq_add emit (advF b.sample_rate f) n1 n2 b.t_sin).symm
  · dsimp only
    rw [← Function.iterate_add_apply, Nat.add_comm n2 n1]
  · rfl
  · intro g
    exact ⟨_, render_sound_state emit advF g _ n2 hc2, rfl⟩

/-- C5, witness: phase continuity instantiated at the integer phase model
`emit t = t`, `advance t = t + 1`, a four-slot buffer, and `n1 = n2 = 1`,
`f = 1`. -/
theorem claim_C5_phase_continuity_witness :
    ((0 : Nat) < 1 ∧
      2 * (1 + 1) ≤ (([0, 0, 0, 0] : List Int)).length) ∧
    (∃ b1 b2 bc,
      SoundBuffer.render_sound (fun t : Int => t) (fun _ _ t => t + 1) 1
        { (⟨[0, 0, 0, 0], 0, 0, 1⟩ : SoundBuffer Int) with
          sample_count := 1 } = some b1 ∧
      SoundBuffer.render_sound (fun t : Int => t) (fun _ _ t => t + 1) 1
        { b1 with sample_count := 1 } = some b2 ∧
      SoundBuffer.render_sound (fun t : Int => t) (fun _ _ t => t + 1) 1
        { (⟨[0, 0, 0, 0], 0, 0, 1⟩ : SoundBuffer Int) with
          sample_count := 1 + 1 } = some bc ∧
      b1.samples.take (2 * 1) ++ b2.samples.take (2 * 1) =
        bc.samples.take (2 * (1 + 1)) ∧
      b2.t_sin = bc.t_sin ∧
      b1.t_sin = ((fun _ _ t => t + 1 : Nat → Nat → Int → Int)
        (⟨[0, 0, 0, 0], 0, 0, 1⟩ : SoundBuffer Int).sample_rate 1)^[1]
        (⟨[0, 0, 0, 0], 0, 0, 1⟩ : SoundBuffer Int).t_sin ∧
      (∀ g : Nat, ∃ b2g,
        SoundBuffer.render_sound (fun t : Int => t) (fun _ _ t => t + 1) g
          { b1 with sample_count := 1 } = some b2g ∧
        b2g.t_sin = ((fun _ _ t => t + 1 : Nat → Nat → Int → Int)
          (⟨[0, 0, 0, 0], 0, 0, 1⟩ : SoundBuffer Int).sample_rate g)^[1]
          b1.t_sin)) :=
  ⟨⟨by decide, by decide⟩,
    claim_C5_phase_continuity (fun t : Int => t) (fun _ _ t => t + 1) 1
      ⟨[0, 0, 0, 0], 0, 0, 1⟩ 1 1 (by decide) (by decide)⟩

/-- C6, counterexample: the tone frequency is not kept strictly positive —
starting from the initial 512 Hz, eight VK_DOWN presses drive `HZ` to 0
(`u16::saturating_sub` saturates at 0, not at a positive bound). -/
theorem claim_C6_counterexample :
    toneRun (List.replicate 8 false) initialHZ = 0 ∧
    ¬ 0 < toneRun (List.replicate 8 false) initialHZ := by
  decide

/-- C6, amended: starting from 512 Hz, every sequence of key adjustments
keeps the frequency within the `u16` range (at most 65535, saturating at
both ends and in particular never negative), but zero is reachable: eight
64 Hz decrements yield frequency 0, which is then passed to the sound
renderer. -/
theorem claim_C6_tone_bounds :
    (∀ evs : List Bool, toneRun evs initialHZ ≤ U16MAX) ∧
    toneRun (List.replicate 8 false) initialHZ = 0 := by
  refine ⟨fun evs => toneRun_le evs initialHZ (by decide), by decide⟩

/-- C7, counterexample: the claim's concrete scenario fails on the offset —
resizing the 1280-by-720 frame with `scroll_offset = 40` to 800-by-600
leaves `current_offset = 41`, not 40, because `resize_dib_section` ends by
calling `step_render(1)`, which increments the offset. -/
theorem claim_C7_counterexample :
    (DisplayBuffer.resize_dib_section
        ⟨List.replicate (1280 * 720) default, 40, 1280, 720⟩ 800 600).map
      DisplayBuffer.current_offset = some 41 ∧
    (DisplayBuffer.resize_dib_section
        ⟨List.replicate (1280 * 720) default, 40, 1280, 720⟩ 800 600).map
      DisplayBuffer.current_offset ≠ some 40 := by
  have h : (DisplayBuffer.resize_dib_section
      ⟨List.replicate (1280 * 720) default, 40, 1280, 720⟩ 800 600).map
        DisplayBuffer.current_offset = some 41 := by
    rw [resize_dib_spec ⟨List.replicate (1280 * 720) default, 40, 1280, 720⟩
      800 600 (by decide) (by decide) (by decide)]
    rfl
  refine ⟨h, ?_⟩
  rw [h]
  intro hc
  exact absurd (Option.some.inj hc) (by decide)

/-- C7, amended: for positive target dimensions (with product within the
`i32` index bound of the render step), `resize_dib_section` reallocates the
memory to exactly `new_width * new_height` pixels (truncating or padding
with default zero pixels via `resizeWith`), stores the new dimensions, and
does not reset the scroll offset — but it does advance it by 1 (with `i32`
two's-complement wraparound, hence by exactly 1 whenever the `i32` addition
does not overflow), because the resize ends with one `step_render(1)` that
already recomputes every green channel from the new dimensions; so the
concrete scenario yields 480000 pixels and `scroll_offset = 41`. -/
theorem claim_C7_resize (db : DisplayBuffer) (nw nh : Int)
    (hw : 0 < nw) (hh : 0 < nh)
    (hbound : nw.toNat * nh.toNat ≤ I32MAX) :
    ∃ db2, db.resize_dib_section nw nh = some db2 ∧
      db2.memory.length = nw.toNat * nh.toNat ∧
      db2.current_offset = asI32 (db.current_offset + 1) ∧
      (-(2 ^ 31) ≤ db.current_offset + 1 → db.current_offset + 1 < 2 ^ 31 →
        db2.current_offset = db.current_offset + 1) ∧
      db2.width = nw ∧ db2.height = nh ∧
      ∀ i : Nat, db2.memory[i]? =
        (resizeWith db.memory (nw.toNat * nh.toNat))[i]?.map (fun p =>
          { p with g := greenAt nw.toNat nh.toNat db.current_offset i }) := by
  rw [resize_dib_spec db nw nh hw hh hbound]
  refine ⟨_, rfl, ?_, rfl, ?_, rfl, rfl, ?_⟩
  · dsimp only
    rw [stepPixels_length, resizeWith_length]
  · intro h1 h2
    exact asI32_eq_self _ h1 h2
  · intro i
    dsimp only
    rw [stepPixels_getElem?]
    simp

/-- C7, witness: the amended resize theorem applied to a 2-by-2 frame with
offset 40 resized to 1-by-1. -/
theorem claim_C7_resize_witness :
    ((0 : Int) < 1 ∧ (0 : Int) < 1 ∧
      (1 : Int).toNat * (1 : Int).toNat ≤ I32MAX) ∧
    (∃ db2, DisplayBuffer.resize_dib_section
        ⟨[default, default, default, default], 40, 2, 2⟩ 1 1 = some db2 ∧
      db2.memory.length = (1 : Int).toNat * (1 : Int).toNat ∧
      db2.current_offset = asI32 ((40 : Int) + 1) ∧
      (-(2 ^ 31) ≤ (40 : Int) + 1 → (40 : Int) + 1 < 2 ^ 31 →
        db2.current_offset = (40 : Int) + 1) ∧
      db2.width = 1 ∧ db2.height = 1 ∧
      ∀ i : Nat, db2.memory[i]? =
        (resizeWith ([default, default, default, default] : List Pixel)
          ((1 : Int).toNat * (1 : Int).toNat))[i]?.map (fun p =>
          { p with g := greenAt (1 : Int).toNat (1 : Int).toNat 40 i })) :=
  ⟨⟨by decide, by decide, by decide⟩,
    claim_C7_resize ⟨[default, default, default, default], 40, 2, 2⟩ 1 1
      (by decide) (by decide) (by decide)⟩

/-- C8, counterexample: Rust's float-to-int `as` cast saturates, it does
not wrap modulo `2 ^ 16`.  At the value `sin(phase) * volume = 1 * 40000`
(so `|volume| > 32767`), the code's cast yields 32767, while the claimed
two's-complement wrap yields `-25536`. -/
theorem claim_C8_counterexample :
    f32AsI16 ((1 : ℚ) * 40000) = 32767 ∧
    i16WrapSpec ((1 : ℚ) * 40000) = -25536 ∧
    f32AsI16 ((1 : ℚ) * 40000) ≠ i16WrapSpec ((1 : ℚ) * 40000) := by
  have h1 : f32AsI16 ((1 : ℚ) * 40000) = 32767 := by
    norm_num [f32AsI16, ratTrunc]
  have h2 : i16WrapSpec ((1 : ℚ) * 40000) = -25536 := by
    norm_num [i16WrapSpec, ratTrunc]
  exact ⟨h1, h2, by rw [h1, h2]; decide⟩

/-- C8, amended: for every render call (rational model of the finite `f32`
values, abstract sine and phase advance), pair `k` receives
`(sin(phase_k) * volume) as i16` in both its left and right slot, with
`phase_k` exactly `k` advances from the starting phase, and the phase ends
`sample_count` advances along; the cast saturates at the `i16` bounds
(32767 / -32768) rather than wrapping modulo `2 ^ 16`. -/
theorem claim_C8_sample_cast (sinF : ℚ → ℚ) (volume : ℚ)
    (advF : Nat → Nat → ℚ → ℚ) (hz : Nat) (b : SoundBuffer ℚ)
    (_hf : 0 < hz) (hcap : 2 * b.sample_count ≤ b.samples.length) :
    ∃ b2, SoundBuffer.render_sound (emitOf sinF volume) advF hz b =
        some b2 ∧
      (∀ k : Nat, k < b.sample_count →
        b2.samples[2 * k]? = some (f32AsI16
          (sinF ((advF b.sample_rate hz)^[k] b.t_sin) * volume)) ∧
        b2.samples[2 * k + 1]? = b2.samples[2 * k]?) ∧
      b2.t_sin = (advF b.sample_rate hz)^[b.sample_count] b.t_sin ∧
      (∀ q : ℚ, (32767 : ℚ) ≤ q → f32AsI16 q = 32767) ∧
      (∀ q : ℚ, q ≤ (-32768 : ℚ) → f32AsI16 q = -32768) := by
  refine ⟨_, render_sound_eq (emitOf sinF volume) advF hz b hcap,
    ?_, rfl, ?_, ?_⟩
  · intro k hk
    dsimp only
    have hidx : 2 * k < (emitSeq (emitOf sinF volume)
        (advF b.sample_rate hz) b.sample_count b.t_sin).length := by
      rw [emitSeq_length]; omega
    have hidx1 : 2 * k + 1 < (emitSeq (emitOf sinF volume)
        (advF b.sample_rate hz) b.sample_count b.t_sin).length := by
      rw [emitSeq_length]; omega
    rw [List.getElem?_append_left hidx, List.getElem?_append_left hidx1]
    have hget := emitSeq_getElem? (emitOf sinF volume)
      (advF b.sample_rate hz) b.sample_count k b.t_sin hk
    rw [hget.1, hget.2]
    exact ⟨rfl, rfl⟩
  · intro q hq
    have h0 : (0 : ℚ) ≤ q := le_trans (by norm_num) hq
    have hfl : (32767 : Int) ≤ ⌊q⌋ := by
      rw [Int.le_floor]; exact_mod_cast hq
    unfold f32AsI16 ratTrunc
    rw [if_pos h0]
    omega
  · intro q hq
    have h0 : ¬ (0 : ℚ) ≤ q := by
      intro hc
      linarith
    have hcl : ⌈q⌉ ≤ (-32768 : Int) := by
      rw [Int.ceil_le]; exact_mod_cast hq
    unfold f32AsI16 ratTrunc
    rw [if_neg h0]
    omega

/-- C8, witness: the amended cast theorem applied at the constant-zero sine
model, volume 0, a two-slot buffer rendering one pair. -/
theorem claim_C8_sample_cast_witness :
    ((0 : Nat) < 1 ∧ 2 * 1 ≤ ([5, 5] : List Int).length) ∧
    (∃ b2, SoundBuffer.render_sound (emitOf (fun _ => 0) 0)
        (fun _ _ t => t) 1 (⟨[5, 5], 1, 0, 1⟩ : SoundBuffer ℚ) =
        some b2 ∧
      (∀ k : Nat, k < 1 →
        b2.samples[2 * k]? = some (f32AsI16
          ((fun _ => (0 : ℚ))
            (Nat.iterate (fun t : ℚ => t) k 0) * 0)) ∧
        b2.samples[2 * k + 1]? = b2.samples[2 * k]?) ∧
      b2.t_sin = Nat.iterate (fun t : ℚ => t) 1 0 ∧
      (∀ q : ℚ, (32767 : ℚ) ≤ q → f32AsI16 q = 32767) ∧
      (∀ q : ℚ, q ≤ (-32768 : ℚ) → f32AsI16 q = -32768)) :=
  ⟨⟨by decide, by decide⟩,
    claim_C8_sample_cast (fun _ => 0) 0 (fun _ _ t => t) 1
      ⟨[5, 5], 1, 0, 1⟩ (by decide) (by decide)⟩

/-- C9: the wraparound law — for `bytes_to_write <= buffer_size` and an
in-range `byte_to_lock`, the two region sizes sum to exactly
`bytes_to_write` and region 2 is non-empty iff the span wraps
(`byte_to_lock + bytes_to_write > buffer_size`); moreover the Plan always
establishes the precondition, computing `bytes_to_write` strictly below
`buffer_size` for every play cursor below `buffer_size` and every
`running_sample_index`. -/
theorem claim_C9_wraparound
    (bufferSize btl btw bps latency rsi playCursor : Nat)
    (hbtl : btl < bufferSize) (_hbtw : btw ≤ bufferSize)
    (_hP : playCursor < bufferSize) :
    (lockRegionSizes bufferSize btl btw).1 +
      (lockRegionSizes bufferSize btl btw).2 = btw ∧
    (0 < (lockRegionSizes bufferSize btl btw).2 ↔
      bufferSize < btl + btw) ∧
    bytesToWrite bufferSize (byteToLock bufferSize bps rsi)
      (targetCursor bufferSize bps latency playCursor) < bufferSize := by
  refine ⟨?_, ?_, plan_bytesToWrite_lt bufferSize bps latency rsi playCursor
    (by omega)⟩
  · unfold lockRegionSizes
    dsimp only
    omega
  · unfold lockRegionSizes
    dsimp only
    omega

/-- C9, witness: the wraparound law at the spec's split scenario —
`buffer_size = 192000`, `byte_to_lock = 191600`, `bytes_to_write = 1600`
(regions 400 and 1200), with the plan inputs that produce it. -/
theorem claim_C9_wraparound_witness :
    (191600 < 192000 ∧ (1600 : Nat) ≤ 192000 ∧ 190000 < 192000) ∧
    ((lockRegionSizes 192000 191600 1600).1 +
       (lockRegionSizes 192000 191600 1600).2 = 1600 ∧
     (0 < (lockRegionSizes 192000 191600 1600).2 ↔
       192000 < 191600 + 1600) ∧
     bytesToWrite 192000 (byteToLock 192000 4 47900)
       (targetCursor 192000 4 800 190000) < 192000) :=
  ⟨⟨by decide, by decide, by decide⟩,
    claim_C9_wraparound 192000 191600 1600 4 800 47900 190000
      (by decide) (by decide) (by decide)⟩

/-- C10: `render_sound` panics (out-of-bounds index) exactly when
`samples.len() < 2 * sample_count`; with enough capacity it succeeds and
leaves every entry at index `>= 2 * sample_count` unchanged; and in the
main loop the precondition always holds, since the buffer is allocated
with `buffer_size = 192000` entries while the planned
`sample_count = bytes_to_write / bytes_per_pair` always satisfies
`2 * sample_count <= 192000` (indeed `bytes_to_write < buffer_size`). -/
theorem claim_C10_render_capacity {σ : Type} (emit : σ → Int)
    (advF : Nat → Nat → σ → σ) (hz : Nat) (b : SoundBuffer σ) :
    (b.samples.length < 2 * b.sample_count →
      b.render_sound emit advF hz = none) ∧
    (2 * b.sample_count ≤ b.samples.length →
      ∃ b2, b.render_sound emit advF hz = some b2 ∧
        ∀ i : Nat, 2 * b.sample_count ≤ i →
          b2.samples[i]? = b.samples[i]?) ∧
    (∀ rsi playCursor : Nat,
      2 * (bytesToWrite mainBufferSize
          (byteToLock mainBufferSize mainBytesPerSample rsi)
          (targetCursor mainBufferSize mainBytesPerSample mainLatency
            playCursor) / mainBytesPerSample) ≤ mainBufferSize) := by
  refine ⟨fun h => render_sound_isNone emit advF hz b h, fun h => ?_, ?_⟩
  · refine ⟨_, render_sound_eq emit advF hz b h, ?_⟩
    intro i hi
    dsimp only
    rw [List.getElem?_append_right (by rw [emitSeq_length]; omega)]
    rw [emitSeq_length, List.getElem?_drop]
    congr 1
    omega
  · intro rsi playCursor
    have hlt := plan_bytesToWrite_lt mainBufferSize mainBytesPerSample
      mainLatency rsi playCursor (by decide)
    unfold mainBufferSize mainBytesPerSample mainSampleRate at hlt ⊢
    omega

/-- C10, witness: the panic branch applied at a two-slot buffer asked to
render three pairs. -/
theorem claim_C10_render_capacity_witness :
    SoundBuffer.render_sound (fun t : Int => t) (fun _ _ t => t + 1) 1
      (⟨[0, 0], 3, 0, 1⟩ : SoundBuffer Int) = none :=
  (claim_C10_render_capacity (fun t : Int => t) (fun _ _ t => t + 1) 1
    ⟨[0, 0], 3, 0, 1⟩).1 (by decide)

end Again
